import Mathlib

/-!
Verification of `giotto/utils/validation.py`.

The module is shallowly embedded: Python numbers become integers and
extended rationals (`PyFloat`, covering the finite floats and `np.inf`
that occur in the module), Python dictionaries become association lists
iterated in insertion order (the iteration order of a Python `dict`),
raised exceptions become an `Except` error kind, and a function that
returns its argument or `None` returns it in the `Except` monad.
NumPy batches are rectangular; they are embedded as nested lists, with
rectangularity (`all rows of equal length`) carried as a hypothesis
where a theorem needs it.  The dimensionality checks `len(X.shape) == 3`
and `X.shape[2] == 3` hold by construction of the embedded types.
-/

namespace GiottoValidation

/-- Kinds of exception the module can raise. `keyError` and `indexError`
arise from unguarded dictionary / array indexing. -/
inductive PyError where
  | typeError
  | valueError
  | keyError
  | indexError
deriving DecidableEq

instance {ε α : Type} [DecidableEq ε] [DecidableEq α] :
    DecidableEq (Except ε α) := fun a b =>
  match a, b with
  | .ok x, .ok y =>
    if h : x = y then .isTrue (by rw [h])
    else .isFalse (fun c => h (Except.ok.inj c))
  | .error e, .error f =>
    if h : e = f then .isTrue (by rw [h])
    else .isFalse (fun c => h (Except.error.inj c))
  | .ok _, .error _ => .isFalse (fun c => Except.noConfusion c)
  | .error _, .ok _ => .isFalse (fun c => Except.noConfusion c)

/-- Addition of rationals by the standard fraction formula, written with
the kernel-computable smart constructor `mkRat`. -/
def qadd (a b : ℚ) : ℚ := mkRat (a.num * b.den + b.num * a.den) (a.den * b.den)

/-- Subtraction of rationals by the standard fraction formula. -/
def qsub (a b : ℚ) : ℚ := mkRat (a.num * b.den - b.num * a.den) (a.den * b.den)

/-- Multiplication of rationals by the standard fraction formula. -/
def qmul (a b : ℚ) : ℚ := mkRat (a.num * b.num) (a.den * b.den)

/-- Absolute value of a rational. -/
def qabs (a : ℚ) : ℚ := mkRat (a.num.natAbs : ℤ) a.den

/-- The sum of a list of rationals. -/
def qsum (l : List ℚ) : ℚ := l.foldr qadd 0

theorem num_eq_mul_den (a : ℚ) : (a.num : ℚ) = a * a.den :=
  (div_eq_iff (by positivity)).mp (Rat.num_div_den a)

theorem qadd_eq_add (a b : ℚ) : qadd a b = a + b := by
  rw [qadd, Rat.mkRat_eq_divInt, Rat.divInt_eq_div]
  push_cast
  rw [div_eq_iff (by positivity), num_eq_mul_den, num_eq_mul_den]
  ring

theorem qsub_eq_sub (a b : ℚ) : qsub a b = a - b := by
  rw [qsub, Rat.mkRat_eq_divInt, Rat.divInt_eq_div]
  push_cast
  rw [div_eq_iff (by positivity), num_eq_mul_den, num_eq_mul_den]
  ring

theorem qmul_eq_mul (a b : ℚ) : qmul a b = a * b := by
  rw [qmul, Rat.mkRat_eq_divInt, Rat.divInt_eq_div]
  push_cast
  rw [div_eq_iff (by positivity), num_eq_mul_den, num_eq_mul_den]
  ring

theorem qabs_eq_abs (a : ℚ) : qabs a = |a| := by
  rw [qabs, Rat.mkRat_eq_divInt, Rat.divInt_eq_div, ← Int.abs_eq_natAbs]
  push_cast
  rw [div_eq_iff (by positivity), num_eq_mul_den, abs_mul,
    abs_of_pos (show (0 : ℚ) < a.den by positivity)]

/-- The Python classes used as expected types in reference declarations:
`int`, `numbers.Number`, `float` and `list`. -/
inductive RefType where
  | int
  | number
  | float
  | list
deriving DecidableEq

/-- A Python float as it occurs in this module: a finite value (embedded
as a rational) or `np.inf`. -/
inductive PyFloat where
  | fin (q : ℚ)
  | inf
deriving DecidableEq

/-- Strict order on `PyFloat`, as NumPy compares floats with `inf`. -/
def PyFloat.lt : PyFloat → PyFloat → Bool
  | .fin a, .fin b => decide (a < b)
  | .fin _, .inf => true
  | .inf, _ => false

/-- Non-strict order on `PyFloat`; `inf <= inf` holds, as in NumPy. -/
def PyFloat.le : PyFloat → PyFloat → Bool
  | .fin a, .fin b => decide (a ≤ b)
  | .inf, .fin _ => false
  | _, .inf => true

/-- A Python value supplied as a parameter: an `int`, a `float`, or a
`list` of values. -/
inductive PyVal where
  | int (n : ℤ)
  | float (x : PyFloat)
  | list (xs : List PyVal)

/-- Python `isinstance` on the embedded values.  A Python `int` is a
`numbers.Number` but a `float` is not an `int`, and conversely. -/
def isinstance : PyVal → RefType → Bool
  | .int _, .int => true
  | .int _, .number => true
  | .float _, .float => true
  | .float _, .number => true
  | .list _, .list => true
  | _, _ => false

/-- The numeric value of a Python scalar; `none` on a list, whose order
comparison against a number raises `TypeError` in Python 3. -/
def PyVal.toVal : PyVal → Option PyFloat
  | .int n => some (.fin (n : ℚ))
  | .float x => some x
  | .list _ => none

mutual

/-- Python `==` on embedded values: numeric equality across `int` and
`float`, elementwise equality on lists, `False` across kinds. -/
def pyEq : PyVal → PyVal → Bool
  | .int a, .int b => decide (a = b)
  | .int a, .float b => decide (PyFloat.fin (a : ℚ) = b)
  | .float a, .int b => decide (a = PyFloat.fin (b : ℚ))
  | .float a, .float b => decide (a = b)
  | .list as, .list bs => pyEqList as bs
  | _, _ => false

/-- Elementwise Python `==` on lists of values. -/
def pyEqList : List PyVal → List PyVal → Bool
  | [], [] => true
  | a :: as, b :: bs => pyEq a b && pyEqList as bs
  | _, _ => false

end

/-- The second component `references[key][1]` of a reference declaration:
a `(min, max)` tuple, a list of admissible values, or — for a list-typed
parameter — the element type paired with an optional `(min, max)` tuple
(`listSpec t (some r)` embeds the tuple `(t, r)`, `listSpec t none` the
one-element list `[t]`). -/
inductive RefSpec where
  | range (lo hi : PyFloat)
  | enum (vs : List PyVal)
  | listSpec (elemTy : RefType) (r : Option (PyFloat × PyFloat))

/-- Python `isinstance(references[key][1], tuple)`. -/
def RefSpec.isTuple : RefSpec → Bool
  | .range _ _ => true
  | .enum _ => false
  | .listSpec _ r => r.isSome

/-- Python `isinstance(references[key][1], list)`. -/
def RefSpec.isList : RefSpec → Bool
  | .range _ _ => false
  | .enum _ => true
  | .listSpec _ r => r.isNone

/-- A reference declaration `references[key]`: the expected type
`references[key][0]` and, unless the declaration has length 1, the
constraint `references[key][1]`. -/
structure Reference where
  ty : RefType
  spec : Option RefSpec

/-- The inner loop of `validate_params` over the elements of a
list-typed parameter: each element must be an instance of
`references[key][1][0]`, and when `references[key][1]` is a tuple, lie
inside the declared `(min, max)` range.  When the spec is not of the
`(elem_type, range)` shape, `references[key][1][0]` is not a class and
Python `isinstance` raises `TypeError` (`IndexError` on an empty
list). -/
def checkElems (spec : RefSpec) : List PyVal → Except PyError Unit
  | [] => .ok ()
  | p :: rest =>
    match spec with
    | .listSpec t r =>
      if ¬ isinstance p t then .error .typeError
      else
        match r with
        | some (lo, hi) =>
          match p.toVal with
          | none => .error .typeError
          | some a =>
            if PyFloat.lt a lo || PyFloat.lt hi a then .error .valueError
            else checkElems spec rest
        | none => checkElems spec rest
    | .enum [] => .error .indexError
    | _ => .error .typeError

/-- The scalar checks of `validate_params` for one key: when
`references[key][1]` is a tuple, a range check; when it is a list, a
membership check.  A tuple of the `(elem_type, range)` shape makes
Python compare a number with a class, a `TypeError`; a value is never
`==` to the class inside a `[elem_type]` list, so membership fails. -/
def checkScalar (v : PyVal) (spec : RefSpec) : Except PyError Unit :=
  match spec with
  | .range lo hi =>
    match v.toVal with
    | none => .error .typeError
    | some a =>
      if PyFloat.lt a lo || PyFloat.lt hi a then .error .valueError
      else .ok ()
  | .enum vs => if vs.any (fun w => pyEq v w) then .ok () else .error .valueError
  | .listSpec _ (some _) => .error .typeError
  | .listSpec _ none => .error .valueError

/-- The outcome of one iteration of the loop of `validate_params`:
either the loop continues with the next key, or it halts — by raising
(`halt (error e)`) or by the `break` of the list branch
(`halt (ok ())`, which makes the whole call return `None`). -/
inductive StepRes where
  | cont
  | halt (r : Except PyError Unit)

/-- The body of the loop of `validate_params` for one `key` of
`references`: look `parameters[key]` up (`KeyError` when absent), raise
`TypeError` on a value not of the declared type, `continue` on a
length-1 declaration, run the element checks and then `break` for a
list-typed declaration, and otherwise run the scalar checks and
`continue`. -/
def validateKey (parameters : List (String × PyVal)) (key : String)
    (ref : Reference) : StepRes :=
  match List.lookup key parameters with
  | none => .halt (.error .keyError)
  | some v =>
    if ¬ isinstance v ref.ty then .halt (.error .typeError)
    else
      match ref.spec with
      | none => .cont
      | some spec =>
        if ref.ty = RefType.list then
          match v with
          | .list xs =>
            match checkElems spec xs with
            | .error e => .halt (.error e)
            | .ok _ => .halt (.ok ())
          | _ => .halt (.error .typeError)
        else
          match checkScalar v spec with
          | .error e => .halt (.error e)
          | .ok _ => .cont

/-- Embedding of `validate_params(parameters, references)`: run the
loop body over the keys of `references` in insertion order until one
iteration halts the loop; falling off the end returns `None`. -/
def validate_params (parameters : List (String × PyVal)) :
    List (String × Reference) → Except PyError Unit
  | [] => .ok ()
  | (key, ref) :: rest =>
    match validateKey parameters key ref with
    | .cont => validate_params parameters rest
    | .halt r => r

/-- A run of `validate_params` traverses this whole reference list with
`continue` at every iteration: nothing is raised and the `break` of the
list branch is never executed. -/
def noBreakRun (parameters : List (String × PyVal))
    (refs : List (String × Reference)) : Bool :=
  refs.all (fun kr =>
    match validateKey parameters kr.1 kr.2 with
    | .cont => true
    | .halt _ => false)

/-- The Schema Registry `available_metrics`: each metric name maps to
its ordered list of `(param, param_type, (min, max))` declarations.
`1e-16` is embedded as the exact rational it denotes and `np.inf` as
`PyFloat.inf`. -/
def available_metrics :
    List (String × List (String × RefType × (PyFloat × PyFloat))) :=
  [("bottleneck", [("delta", .number, (.fin 0, .fin 1))]),
   ("wasserstein", [("p", .int, (.fin 1, .inf)),
                    ("delta", .number, (.fin (mkRat 1 (10 ^ 16)), .fin 1))]),
   ("betti", [("p", .number, (.fin 1, .inf)),
              ("n_values", .int, (.fin 1, .inf))]),
   ("landscape", [("p", .number, (.fin 1, .inf)),
                  ("n_values", .int, (.fin 1, .inf)),
                  ("n_layers", .int, (.fin 1, .inf))]),
   ("heat", [("order", .number, (.fin 1, .inf)),
             ("n_values", .int, (.fin 1, .inf)),
             ("sigma", .number, (.fin 0, .inf))])]

/-- The deduplicated pool `available_metric_params` of every parameter
name declared by any metric; only membership in it is ever used, so the
arbitrary iteration order of the Python `set` is immaterial. -/
def available_metric_params : List String :=
  ((available_metrics.map (fun m => m.2.map (fun d => d.1))).flatten).dedup

/-- The first loop of `validate_metric_params`: each declaration whose
parameter the caller supplied is checked for type (`TypeError`) and for
the inclusive range `[min, max]` (`ValueError`); declarations the caller
did not supply are skipped. -/
def checkDeclaredParams (metric_params : List (String × PyVal)) :
    List (String × RefType × (PyFloat × PyFloat)) → Except PyError Unit
  | [] => .ok ()
  | (param, ptype, lo, hi) :: rest =>
    match List.lookup param metric_params with
    | none => checkDeclaredParams metric_params rest
    | some v =>
      if ¬ isinstance v ptype then .error .typeError
      else
        match v.toVal with
        | none => .error .typeError
        | some a =>
          if PyFloat.lt a lo || PyFloat.lt hi a then .error .valueError
          else checkDeclaredParams metric_params rest

/-- The second loop of `validate_metric_params`: every supplied key must
occur in the global pool `available_metric_params`. -/
def checkUnknownParams : List (String × PyVal) → Except PyError Unit
  | [] => .ok ()
  | (param, _) :: rest =>
    if param ∈ available_metric_params then checkUnknownParams rest
    else .error .valueError

/-- Embedding of `validate_metric_params(metric, metric_params)`: reject
an unknown metric with `ValueError`, then run the declared-parameter
checks and the unknown-name check.  The Python guard
`metric not in available_metrics.keys()` followed by
`available_metrics[metric]` is the association-list lookup. -/
def validate_metric_params (metric : String)
    (metric_params : List (String × PyVal)) : Except PyError Unit :=
  match List.lookup metric available_metrics with
  | none => .error .valueError
  | some schema =>
    match checkDeclaredParams metric_params schema with
    | .error e => .error e
    | .ok _ => checkUnknownParams metric_params

/-- The parameter declaration `d` is supplied in `mp` with a numeric
value lying outside the inclusive declared range `[min, max]`. -/
def outOfRange (mp : List (String × PyVal))
    (d : String × RefType × (PyFloat × PyFloat)) : Prop :=
  ∃ v a, List.lookup d.1 mp = some v ∧ v.toVal = some a ∧
    (PyFloat.lt a d.2.2.1 || PyFloat.lt d.2.2.2 a) = true

/-- Every declared parameter of `schema` that the caller supplied in
`mp` has a value of its declared type. -/
def typesOk (mp : List (String × PyVal))
    (schema : List (String × RefType × (PyFloat × PyFloat))) : Bool :=
  schema.all (fun d =>
    Option.all (fun v => isinstance v d.2.1) (List.lookup d.1 mp))

/-- Python `int(q)` on a finite float: truncation toward zero, which on
a normalized fraction is the truncated division of the numerator by the
denominator. -/
def ratTrunc (q : ℚ) : ℤ := q.num.tdiv q.den

/-- The loop of `check_diagram` over the distinct homology dimensions of
the first sample; `n` is the number of distinct dimensions.  `np.inf`
must be the sole distinct value, and every finite dimension must be
integral (`dim == int(dim)`) and equal to its absolute value. -/
def checkDims (n : ℕ) : List PyFloat → Except PyError Unit
  | [] => .ok ()
  | .inf :: rest => if n ≠ 1 then .error .valueError else checkDims n rest
  | .fin q :: rest =>
    if q ≠ ((ratTrunc q : ℤ) : ℚ) then .error .valueError
    else if q ≠ qabs q then .error .valueError
    else checkDims n rest

/-- A point of a persistence diagram: `(birth, death, dimension)`. -/
abbrev DiagPoint := PyFloat × PyFloat × PyFloat

/-- The number `np.sum(X[:, :, 1] >= X[:, :, 0])` of points whose death
is at least their birth, over all samples. -/
def aboveDiagCount (X : List (List DiagPoint)) : ℕ :=
  (X.map (fun s => (s.filter (fun p => PyFloat.le p.1 p.2.1)).length)).sum

/-- Embedding of `check_diagram(X)` for a batch of shape
`(n_samples, n_points, 3)`; both shape guards hold by construction of
the type, and `X[0]` on an empty first axis raises `IndexError`.  The
distinct homology dimensions of the first sample are checked, then the
global count of above-diagonal points is compared with
`n_samples * n_points`; on success the input is returned unchanged. -/
def check_diagram :
    List (List DiagPoint) → Except PyError (List (List DiagPoint))
  | [] => .error .indexError
  | s0 :: rest =>
    match checkDims ((s0.map (fun p => p.2.2)).dedup).length
        ((s0.map (fun p => p.2.2)).dedup) with
    | .error e => .error e
    | .ok _ =>
      if aboveDiagCount (s0 :: rest) ≠ (s0 :: rest).length * s0.length then
        .error .valueError
      else .ok (s0 :: rest)

/-- The sum of the diagonal entries of one adjacency matrix,
`np.diagonal`; a NumPy array is rectangular, so on the square matrices
the check admits the default never fires. -/
def diagMatSum (M : List (List ℚ)) : ℚ :=
  qsum (M.enum.map (fun ir => ir.2.getD ir.1 0))

/-- The total `np.sum(np.diagonal(X, axis1=1, axis2=2))` over all
samples. -/
def diagSum (X : List (List (List ℚ))) : ℚ := qsum (X.map diagMatSum)

/-- Transpose along the last two axes, `np.transpose(X, (0, 2, 1))`. -/
def transposeB (X : List (List (List ℚ))) : List (List (List ℚ)) :=
  X.map List.transpose

/-- The `np.allclose` element test `|a - b| <= atol + rtol * |b|` with
its default tolerances `rtol=1e-5`, `atol=1e-8`. -/
def isClose (a b : ℚ) : Bool :=
  decide (qabs (qsub a b) ≤ qadd (mkRat 1 100000000) (qmul (mkRat 1 100000) (qabs b)))

/-- Elementwise `np.allclose` on two matrices of the same shape. -/
def allcloseMat (A B : List (List ℚ)) : Bool :=
  A.length == B.length &&
    (A.zip B).all (fun rr =>
      rr.1.length == rr.2.length &&
        (rr.1.zip rr.2).all (fun ab => isClose ab.1 ab.2))

/-- `np.allclose` on two batches of the same shape. -/
def allcloseB (X Y : List (List (List ℚ))) : Bool :=
  X.length == Y.length && (X.zip Y).all (fun MM => allcloseMat MM.1 MM.2)

/-- The count `np.sum(X < 0)` of negative entries of the batch. -/
def negCount (X : List (List (List ℚ))) : ℕ :=
  (X.map (fun M => (M.map (fun r => (r.filter (fun a => decide (a < 0))).length)).sum)).sum

/-- The number of rows of each sample matrix, `X.shape[1]`. -/
def shapeRows (X : List (List (List ℚ))) : ℕ := (X.headD []).length

/-- The number of columns of each sample matrix, `X.shape[2]`. -/
def shapeCols (X : List (List (List ℚ))) : ℕ := ((X.headD []).headD []).length

/-- The symmetry and non-negativity stages of `check_graph`, run after
the diagonal-sum stage has passed. -/
def symNegStage (X : List (List (List ℚ))) :
    Except PyError (List (List (List ℚ))) :=
  if ¬ allcloseB X (transposeB X) then .error .valueError
  else if 0 < negCount X then .error .valueError
  else .ok X

/-- Embedding of `check_graph(X)` for a batch of shape
`(n_samples, n_nodes, n_nodes)`; the dimensionality guard holds by
construction of the type.  Non-square shape raises `TypeError`; then a
nonzero total diagonal sum, an asymmetry beyond the `np.allclose`
tolerance, and a negative entry each raise `ValueError`; on success the
input is returned unchanged. -/
def check_graph (X : List (List (List ℚ))) :
    Except PyError (List (List (List ℚ))) :=
  if shapeRows X ≠ shapeCols X then .error .typeError
  else if diagSum X ≠ 0 then .error .valueError
  else if ¬ allcloseB X (transposeB X) then .error .valueError
  else if 0 < negCount X then .error .valueError
  else .ok X

theorem noBreakRun_append {ps : List (String × PyVal)}
    {l1 l2 : List (String × Reference)} (h : noBreakRun ps l1 = true) :
    validate_params ps (l1 ++ l2) = validate_params ps l2 := by
  induction l1 with
  | nil => rfl
  | cons hd tl ih =>
    obtain ⟨key, ref⟩ := hd
    simp only [noBreakRun, List.all_cons, Bool.and_eq_true] at h
    obtain ⟨h1, h2⟩ := h
    rw [List.cons_append, validate_params]
    cases hk : validateKey ps key ref with
    | cont => exact ih h2
    | halt r => rw [hk] at h1; exact absurd h1 (by simp)

/-- Claim C1, amended: once the loop of `validate_params` reaches —
with every earlier key passing its checks and continuing — a key whose
declared expected type is the list type and whose declaration carries a
constraint beyond the type, and that key's element checks pass, the
loop terminates: no subsequent key of `references` is checked at all,
so a later-iterated key whose value violates its declared type or range
raises no error and `validate_params` returns normally.  (As frozen the
claim also covers a list-typed key with a length-1 declaration, where
the loop in fact continues; see the counterexample.) -/
theorem validate_params_list_break
    (ps : List (String × PyVal)) (l1 l2 : List (String × Reference))
    (key : String) (spec : RefSpec) (xs : List PyVal)
    (h1 : noBreakRun ps l1 = true)
    (h2 : List.lookup key ps = some (.list xs))
    (h3 : checkElems spec xs = .ok ()) :
    validate_params ps
      (l1 ++ (key, ⟨RefType.list, some spec⟩) :: l2) = .ok () := by
  rw [noBreakRun_append h1, validate_params, validateKey, h2]
  simp [isinstance, h3]

/-- Witness for C1: after the list-typed key `a` (empty list, element
checks pass) the loop stops, so the key `b`, whose value 5 violates its
declared range `(10, 20)`, raises nothing and the call returns
normally. -/
theorem validate_params_list_break_witness :
    validate_params [("a", PyVal.list []), ("b", PyVal.int 5)]
      ([] ++ ("a", (⟨RefType.list,
          some (RefSpec.listSpec RefType.int
            (some (PyFloat.fin 0, PyFloat.fin 10)))⟩ : Reference)) ::
        [("b", ⟨RefType.number,
          some (RefSpec.range (PyFloat.fin 10) (PyFloat.fin 20))⟩)]) =
      .ok () :=
  validate_params_list_break _ _ _ "a" _ [] rfl rfl rfl

/-- Counterexample to C1 as frozen: the key `a` has declared expected
type `list` and is processed without raising (its declaration has
length 1, so the iteration continues), yet the subsequent key `b` is
checked and its out-of-range value raises `ValueError`, so
`validate_params` does not return normally. -/
theorem validate_params_list_break_cex :
    validateKey [("a", PyVal.list []), ("b", PyVal.int 5)] "a"
        ⟨RefType.list, none⟩ = StepRes.cont ∧
    validate_params [("a", PyVal.list []), ("b", PyVal.int 5)]
      [("a", ⟨RefType.list, none⟩),
       ("b", ⟨RefType.number,
         some (RefSpec.range (PyFloat.fin 10) (PyFloat.fin 20))⟩)] =
      .error .valueError := by
  exact ⟨rfl, rfl⟩

/-- Claim C10, amended: when the loop of `validate_params` reaches —
with every earlier key passing its checks and continuing — a key of
`references` that is absent from `parameters`, the unguarded lookup
`parameters[key]` fails with `KeyError` before that key's declared type
check runs.  (As frozen, the claim promises a `KeyError` whenever any
key of `references` is absent from `parameters`; a key sitting after a
processed list-typed key is never looked up at all, see the
counterexample.) -/
theorem validate_params_missing_key
    (ps : List (String × PyVal)) (l1 l2 : List (String × Reference))
    (key : String) (ref : Reference)
    (h1 : noBreakRun ps l1 = true)
    (h2 : List.lookup key ps = none) :
    validate_params ps (l1 ++ (key, ref) :: l2) = .error .keyError := by
  rw [noBreakRun_append h1, validate_params, validateKey, h2]

/-- Witness for C10: after the passing key `x`, the key `y` of
`references` is absent from `parameters` and raises `KeyError`. -/
theorem validate_params_missing_key_witness :
    validate_params [("x", PyVal.int 3)]
      ([("x", (⟨RefType.int, none⟩ : Reference))] ++
        ("y", (⟨RefType.int, none⟩ : Reference)) :: []) =
      .error .keyError :=
  validate_params_missing_key _ _ _ "y" _ rfl rfl

/-- Counterexample to C10 as frozen: `references` contains the key `b`,
absent from `parameters`, yet `validate_params` returns normally — the
list-typed key `a` is processed first and `break`s the loop, so
`parameters["b"]` is never looked up and no `KeyError` is raised. -/
theorem validate_params_missing_key_cex :
    ("b" ∈ ([("a", (⟨RefType.list,
          some (RefSpec.listSpec RefType.int none)⟩ : Reference)),
        ("b", ⟨RefType.int, none⟩)].map Prod.fst)) ∧
    List.lookup "b" [("a", PyVal.list [])] = none ∧
    validate_params [("a", PyVal.list [])]
      [("a", ⟨RefType.list, some (RefSpec.listSpec RefType.int none)⟩),
       ("b", ⟨RefType.int, none⟩)] = .ok () := by
  exact ⟨by decide, rfl, rfl⟩

theorem lookup_eq_none_of_not_mem {β : Type} {l : List (String × β)}
    {k : String} (h : k ∉ l.map Prod.fst) : List.lookup k l = none := by
  induction l with
  | nil => rfl
  | cons hd tl ih =>
    obtain ⟨a, b⟩ := hd
    simp only [List.map_cons, List.mem_cons, not_or] at h
    have hne : (k == a) = false := beq_eq_false_iff_ne.mpr h.1
    simp [List.lookup, hne, ih h.2]

theorem mem_of_lookup_eq_some {β : Type} {l : List (String × β)}
    {k : String} {v : β} (h : List.lookup k l = some v) : (k, v) ∈ l := by
  induction l with
  | nil => exact absurd h (by simp [List.lookup])
  | cons hd tl ih =>
    obtain ⟨a, b⟩ := hd
    rw [List.lookup] at h
    cases hk : (k == a) with
    | true =>
      rw [hk] at h
      obtain rfl : b = v := Option.some.inj h
      obtain rfl : k = a := eq_of_beq hk
      exact List.mem_cons_self _ _
    | false =>
      rw [hk] at h
      exact List.mem_cons_of_mem _ (ih h)

theorem checkUnknownParams_ok {mp : List (String × PyVal)}
    (h : ∀ p ∈ mp.map Prod.fst, p ∈ available_metric_params) :
    checkUnknownParams mp = .ok () := by
  induction mp with
  | nil => rfl
  | cons hd tl ih =>
    obtain ⟨p, v⟩ := hd
    rw [checkUnknownParams, if_pos (h p (by simp))]
    exact ih (fun q hq => h q (by simp [hq]))

theorem checkUnknownParams_error_iff {mp : List (String × PyVal)} :
    checkUnknownParams mp = .error .valueError ↔
      ∃ p ∈ mp.map Prod.fst, p ∉ available_metric_params := by
  induction mp with
  | nil => simp [checkUnknownParams]
  | cons hd tl ih =>
    obtain ⟨p, v⟩ := hd
    by_cases hp : p ∈ available_metric_params
    · rw [checkUnknownParams, if_pos hp, ih]
      constructor
      · rintro ⟨q, hq, hnq⟩
        exact ⟨q, by simp [hq], hnq⟩
      · rintro ⟨q, hq, hnq⟩
        simp only [List.map_cons, List.mem_cons] at hq
        rcases hq with rfl | hq
        · exact absurd hp hnq
        · exact ⟨q, hq, hnq⟩
    · rw [checkUnknownParams, if_neg hp]
      exact iff_of_true rfl ⟨p, by simp, hp⟩

theorem isinstance_toVal {v : PyVal} {t : RefType}
    (h1 : isinstance v t = true) (h2 : t ≠ RefType.list) :
    ∃ a, v.toVal = some a := by
  cases v <;> cases t <;> simp_all [isinstance, PyVal.toVal]

theorem available_metrics_no_list_types :
    ∀ m ∈ available_metrics, ∀ d ∈ m.2, d.2.1 ≠ RefType.list := by decide

theorem checkDeclaredParams_cases (mp : List (String × PyVal)) :
    ∀ schema, typesOk mp schema = true →
    (∀ d ∈ schema, d.2.1 ≠ RefType.list) →
    (checkDeclaredParams mp schema = .ok () ∧ ¬ ∃ d ∈ schema, outOfRange mp d) ∨
    (checkDeclaredParams mp schema = .error .valueError ∧
      ∃ d ∈ schema, outOfRange mp d) := by
  intro schema
  induction schema with
  | nil => exact fun _ _ => Or.inl ⟨rfl, by simp⟩
  | cons d rest ih =>
    intro hty hnl
    rw [typesOk, List.all_cons, Bool.and_eq_true] at hty
    obtain ⟨hty1, hty2⟩ := hty
    obtain ⟨param, ptype, lo, hi⟩ := d
    rw [checkDeclaredParams]
    cases hlk : List.lookup param mp with
    | none =>
      rcases ih hty2 (fun e he => hnl e (List.mem_cons_of_mem _ he)) with
        ⟨hok, hno⟩ | ⟨herr, hex⟩
      · refine Or.inl ⟨hok, ?_⟩
        rintro ⟨e, he, hbad⟩
        rcases List.mem_cons.mp he with rfl | he2
        · obtain ⟨v, a, hv, -, -⟩ := hbad
          rw [hlk] at hv
          exact Option.noConfusion hv
        · exact hno ⟨e, he2, hbad⟩
      · exact Or.inr ⟨herr, hex.imp
          (fun e h => ⟨List.mem_cons_of_mem _ h.1, h.2⟩)⟩
    | some v =>
      rw [hlk, Option.all_some] at hty1
      dsimp only at hty1 ⊢
      rw [if_neg (by simp [hty1])]
      obtain ⟨a, hva⟩ := isinstance_toVal hty1
        (hnl _ (List.mem_cons_self _ _))
      rw [hva]
      dsimp only
      cases hcond : (PyFloat.lt a lo || PyFloat.lt hi a) with
      | true =>
        rw [if_pos rfl]
        exact Or.inr ⟨rfl, ⟨(param, ptype, lo, hi),
          List.mem_cons_self _ _, v, a, hlk, hva, hcond⟩⟩
      | false =>
        rw [if_neg (by simp [hcond])]
        rcases ih hty2 (fun e he => hnl e (List.mem_cons_of_mem _ he)) with
          ⟨hok, hno⟩ | ⟨herr, hex⟩
        · refine Or.inl ⟨hok, ?_⟩
          rintro ⟨e, he, hbad⟩
          rcases List.mem_cons.mp he with rfl | he2
          · obtain ⟨v2, a2, hv2, ha2, hc2⟩ := hbad
            rw [hlk] at hv2
            obtain rfl : v = v2 := Option.some.inj hv2
            rw [hva] at ha2
            obtain rfl : a = a2 := Option.some.inj ha2
            rw [hcond] at hc2
            exact Bool.false_ne_true hc2
          · exact hno ⟨e, he2, hbad⟩
        · exact Or.inr ⟨herr, hex.imp
            (fun e h => ⟨List.mem_cons_of_mem _ h.1, h.2⟩)⟩

/-- Claim C2: for a registered metric and a `metric_params` whose
declared-and-supplied parameters all pass their checks,
`validate_metric_params` fails with `ValueError` exactly when some
supplied key is not a declared parameter name of any metric in the
registry — the namespace is global across all metrics; in particular
`validate_metric_params("heat", \x7b"bogus_param": 1\x7d)` fails with
`ValueError`. -/
theorem validate_metric_params_global_pool :
    validate_metric_params "heat" [("bogus_param", PyVal.int 1)] =
      .error .valueError ∧
    ∀ metric schema mp,
      List.lookup metric available_metrics = some schema →
      checkDeclaredParams mp schema = .ok () →
      (validate_metric_params metric mp = .error .valueError ↔
        ∃ p ∈ mp.map Prod.fst, p ∉ available_metric_params) := by
  refine ⟨rfl, ?_⟩
  intro metric schema mp hlk hok
  rw [validate_metric_params, hlk]
  dsimp only
  rw [hok]
  exact checkUnknownParams_error_iff

/-- Witness for C2 at the concrete input of the claim: `"bogus_param"`
is in no schema, so the call on metric `"heat"` fails. -/
theorem validate_metric_params_global_pool_witness :
    validate_metric_params "heat" [("bogus_param", PyVal.int 1)] =
      .error .valueError :=
  (validate_metric_params_global_pool.2 "heat" _
      [("bogus_param", PyVal.int 1)] rfl rfl).mpr
    ⟨"bogus_param", by decide, by decide⟩

/-- Claim C4: the Schema Registry's keys are exactly bottleneck,
wasserstein, betti, landscape, heat, and on any other metric name
`validate_metric_params` fails with `ValueError` before any parameter
check; in particular on `"unknown_metric"` with empty params. -/
theorem validate_metric_params_unknown_metric :
    available_metrics.map Prod.fst =
      ["bottleneck", "wasserstein", "betti", "landscape", "heat"] ∧
    ∀ metric mp, metric ∉ available_metrics.map Prod.fst →
      validate_metric_params metric mp = .error .valueError := by
  refine ⟨rfl, ?_⟩
  intro metric mp h
  rw [validate_metric_params, lookup_eq_none_of_not_mem h]

/-- Witness for C4 at the concrete input of the claim. -/
theorem validate_metric_params_unknown_metric_witness :
    validate_metric_params "unknown_metric" [] = .error .valueError :=
  validate_metric_params_unknown_metric.2 "unknown_metric" [] (by decide)

/-- Claim C3: for a registered metric, a `metric_params` all of whose
keys are recognized parameter names (so that the separate unknown-name
check of C2 cannot fire) and whose declared-and-supplied values have
their declared types, `validate_metric_params` fails with `ValueError`
exactly when some declared parameter is supplied with a value outside
its inclusive declared range; declared parameters the caller does not
supply are silently skipped.  In particular the wasserstein call with
p=2, delta=0.5 succeeds and the one with p=0 fails with `ValueError`. -/
theorem validate_metric_params_range_iff :
    validate_metric_params "wasserstein"
      [("p", PyVal.int 2), ("delta", PyVal.float (.fin (mkRat 1 2)))] =
      .ok () ∧
    validate_metric_params "wasserstein" [("p", PyVal.int 0)] =
      .error .valueError ∧
    ∀ metric schema mp,
      List.lookup metric available_metrics = some schema →
      (∀ p ∈ mp.map Prod.fst, p ∈ available_metric_params) →
      typesOk mp schema = true →
      (validate_metric_params metric mp = .error .valueError ↔
        ∃ d ∈ schema, outOfRange mp d) := by
  refine ⟨rfl, rfl, ?_⟩
  intro metric schema mp hlk hknown hty
  have hnl : ∀ d ∈ schema, d.2.1 ≠ RefType.list := fun d hd =>
    available_metrics_no_list_types (metric, schema)
      (mem_of_lookup_eq_some hlk) d hd
  rw [validate_metric_params, hlk]
  dsimp only
  rcases checkDeclaredParams_cases mp schema hty hnl with
    ⟨hok, hno⟩ | ⟨herr, hex⟩
  · rw [hok]
    dsimp only
    rw [checkUnknownParams_ok hknown]
    exact iff_of_false (by simp) hno
  · rw [herr]
    exact iff_of_true rfl hex

/-- Witness for C3 at the concrete failing input of the claim: for
wasserstein, `p = 0` lies below the declared minimum 1. -/
theorem validate_metric_params_range_iff_witness :
    validate_metric_params "wasserstein" [("p", PyVal.int 0)] =
      .error .valueError :=
  (validate_metric_params_range_iff.2.2 "wasserstein" _
      [("p", PyVal.int 0)] rfl (by decide) (by decide)).mpr
    ⟨("p", RefType.int, (PyFloat.fin 1, PyFloat.inf)), by decide,
      PyVal.int 0, PyFloat.fin 0, rfl, rfl, rfl⟩

theorem ratTrunc_natCast (k : ℕ) : ratTrunc (k : ℚ) = k := by
  rw [ratTrunc, Rat.num_natCast, Rat.den_natCast]
  exact Int.tdiv_one _

theorem qabs_natCast (k : ℕ) : qabs (k : ℚ) = (k : ℚ) := by
  rw [qabs_eq_abs]
  exact abs_of_nonneg (by positivity)

theorem checkDims_ok_of_nat (n : ℕ) {l : List PyFloat}
    (h : ∀ d ∈ l, ∃ k : ℕ, d = .fin k) : checkDims n l = .ok () := by
  induction l with
  | nil => rfl
  | cons d rest ih =>
    obtain ⟨k, rfl⟩ := h d (List.mem_cons_self _ _)
    rw [checkDims, if_neg (by simp [ratTrunc_natCast]),
      if_neg (by simp [qabs_natCast])]
    exact ih (fun e he => h e (List.mem_cons_of_mem _ he))

theorem checkDims_inf_error {n : ℕ} (hn : n ≠ 1) :
    ∀ {l : List PyFloat}, PyFloat.inf ∈ l →
      checkDims n l = .error .valueError := by
  intro l
  induction l with
  | nil => intro h; exact absurd h (by simp)
  | cons d rest ih =>
    intro hmem
    cases d with
    | inf => rw [checkDims, if_pos hn]
    | fin q =>
      have hmem2 : PyFloat.inf ∈ rest := by
        rcases List.mem_cons.mp hmem with h | h
        · exact absurd h (by simp)
        · exact h
      rw [checkDims]
      by_cases h1 : q ≠ ((ratTrunc q : ℤ) : ℚ)
      · rw [if_pos h1]
      · rw [if_neg h1]
        by_cases h2 : q ≠ qabs q
        · rw [if_pos h2]
        · rw [if_neg h2]
          exact ih hmem2

theorem sum_map_const {α : Type} (X : List α) (f : α → ℕ) (m : ℕ)
    (h : ∀ s ∈ X, f s = m) : (X.map f).sum = X.length * m := by
  induction X with
  | nil => simp
  | cons s rest ih =>
    simp only [List.map_cons, List.sum_cons, List.length_cons]
    rw [h s (List.mem_cons_self _ _),
      ih (fun e he => h e (List.mem_cons_of_mem _ he))]
    ring

theorem aboveDiagCount_eq_of_all {X : List (List DiagPoint)} {m : ℕ}
    (hrect : ∀ s ∈ X, s.length = m)
    (hall : ∀ s ∈ X, ∀ p ∈ s, PyFloat.le p.1 p.2.1 = true) :
    aboveDiagCount X = X.length * m := by
  rw [aboveDiagCount]
  apply sum_map_const
  intro s hs
  rw [List.filter_length_eq_length.mpr (hall s hs)]
  exact hrect s hs

theorem le_eq_false_of_lt : ∀ {a b : PyFloat},
    PyFloat.lt b a = true → PyFloat.le a b = false
  | .fin x, .fin y, h => by
    simp only [PyFloat.lt, decide_eq_true_eq] at h
    simp only [PyFloat.le, decide_eq_false_iff_not]
    exact not_le.mpr h
  | .fin x, .inf, h => by simp [PyFloat.lt] at h
  | .inf, .fin y, h => by simp [PyFloat.le]
  | .inf, .inf, h => by simp [PyFloat.lt] at h

theorem aboveDiagCount_le {X : List (List DiagPoint)} {m : ℕ}
    (hrect : ∀ s ∈ X, s.length = m) :
    aboveDiagCount X ≤ X.length * m := by
  induction X with
  | nil => simp [aboveDiagCount]
  | cons s rest ih =>
    rw [aboveDiagCount, List.map_cons, List.sum_cons, List.length_cons,
      Nat.succ_mul, Nat.add_comm (rest.length * m) m]
    have h1 : (s.filter (fun p => PyFloat.le p.1 p.2.1)).length ≤ m :=
      hrect s (List.mem_cons_self _ _) ▸ List.length_filter_le _ _
    have h2 : aboveDiagCount rest ≤ rest.length * m :=
      ih (fun e he => hrect e (List.mem_cons_of_mem _ he))
    exact Nat.add_le_add h1 h2

theorem aboveDiagCount_lt_of_bad {X : List (List DiagPoint)} {m : ℕ}
    (hrect : ∀ s ∈ X, s.length = m)
    (hbad : ∃ s ∈ X, ∃ p ∈ s, PyFloat.lt p.2.1 p.1 = true) :
    aboveDiagCount X < X.length * m := by
  induction X with
  | nil => simp at hbad
  | cons s rest ih =>
    rw [aboveDiagCount, List.map_cons, List.sum_cons, List.length_cons,
      Nat.succ_mul, Nat.add_comm (rest.length * m) m]
    have hs : s.length = m := hrect s (List.mem_cons_self _ _)
    have hrest : ∀ e ∈ rest, e.length = m :=
      fun e he => hrect e (List.mem_cons_of_mem _ he)
    obtain ⟨t, ht, p, hp, hlt⟩ := hbad
    rcases List.mem_cons.mp ht with rfl | ht2
    · have hstrict : (t.filter (fun p => PyFloat.le p.1 p.2.1)).length < m := by
        have hle : (t.filter (fun p => PyFloat.le p.1 p.2.1)).length ≤ m :=
          hs ▸ List.length_filter_le _ _
        rcases Nat.lt_or_ge (t.filter (fun p => PyFloat.le p.1 p.2.1)).length m
          with h | h
        · exact h
        · exfalso
          have heq : (t.filter (fun p => PyFloat.le p.1 p.2.1)).length =
              t.length := by
            rw [hs]
            exact Nat.le_antisymm hle h
          have hall2 := List.filter_length_eq_length.mp heq p hp
          rw [le_eq_false_of_lt hlt] at hall2
          exact absurd hall2 (by simp)
      have h2 : aboveDiagCount rest ≤ rest.length * m := aboveDiagCount_le hrest
      exact Nat.add_lt_add_of_lt_of_le hstrict h2
    · have h1 : (s.filter (fun p => PyFloat.le p.1 p.2.1)).length ≤ m :=
        hs ▸ List.length_filter_le _ _
      have h2 : aboveDiagCount rest < rest.length * m :=
        ih hrest ⟨t, ht2, p, hp, hlt⟩
      exact Nat.add_lt_add_of_le_of_lt h1 h2

/-- Claim C5: a diagram batch (3-dimensional with last axis of size 3
by construction of the embedded type, nonempty so that its first sample
exists, rectangular as every NumPy array is) in which death is at least
birth at every point of every sample and in which every distinct
homology dimension of the first sample is a non-negative integer — or
the infinite sentinel is the unique distinct value — passes
`check_diagram`, which returns the input unchanged. -/
theorem check_diagram_valid_ok (s0 : List DiagPoint)
    (rest : List (List DiagPoint))
    (hrect : ∀ s ∈ s0 :: rest, s.length = s0.length)
    (hall : ∀ s ∈ s0 :: rest, ∀ p ∈ s, PyFloat.le p.1 p.2.1 = true)
    (hdims : (∀ d ∈ (s0.map (fun p => p.2.2)).dedup, ∃ k : ℕ, d = .fin k) ∨
      (s0.map (fun p => p.2.2)).dedup = [PyFloat.inf]) :
    check_diagram (s0 :: rest) = .ok (s0 :: rest) := by
  have hdimsok : checkDims ((s0.map (fun p => p.2.2)).dedup).length
      ((s0.map (fun p => p.2.2)).dedup) = .ok () := by
    rcases hdims with h | h
    · exact checkDims_ok_of_nat _ h
    · rw [h]; rfl
  rw [check_diagram, hdimsok]
  dsimp only
  rw [if_neg (by simp [aboveDiagCount_eq_of_all hrect hall])]

/-- Witness for C5: a batch of one sample of one point, born at 0 and
never dying, in the stacked encoding whose sole dimension label is the
infinite sentinel, passes through unchanged. -/
theorem check_diagram_valid_ok_witness :
    check_diagram [[(PyFloat.fin 0, PyFloat.inf, PyFloat.inf)]] =
      .ok [[(PyFloat.fin 0, PyFloat.inf, PyFloat.inf)]] :=
  check_diagram_valid_ok _ _ (by decide) (by decide) (Or.inr rfl)

/-- Claim C6: on a diagram batch that passes the shape checks (by
construction plus nonemptiness) and the homology-dimension checks, a
point with death below birth makes `check_diagram` fail with
`ValueError`, and the failure condition is exactly the global count
comparison: the number of points with death at least birth differs
from `n_samples * n_points`. -/
theorem check_diagram_below_diagonal (s0 : List DiagPoint)
    (rest : List (List DiagPoint))
    (hrect : ∀ s ∈ s0 :: rest, s.length = s0.length)
    (hdims : checkDims ((s0.map (fun p => p.2.2)).dedup).length
      ((s0.map (fun p => p.2.2)).dedup) = .ok ()) :
    (check_diagram (s0 :: rest) = .error .valueError ↔
      aboveDiagCount (s0 :: rest) ≠ (s0 :: rest).length * s0.length) ∧
    ((∃ s ∈ s0 :: rest, ∃ p ∈ s, PyFloat.lt p.2.1 p.1 = true) →
      check_diagram (s0 :: rest) = .error .valueError) := by
  have key : check_diagram (s0 :: rest) =
      if aboveDiagCount (s0 :: rest) ≠ (s0 :: rest).length * s0.length then
        .error .valueError
      else .ok (s0 :: rest) := by
    rw [check_diagram, hdims]
  constructor
  · by_cases h : aboveDiagCount (s0 :: rest) ≠ (s0 :: rest).length * s0.length
    · exact iff_of_true (by rw [key, if_pos h]) h
    · exact iff_of_false (by rw [key, if_neg h]; simp) h
  · intro hbad
    rw [key, if_pos (Nat.ne_of_lt (aboveDiagCount_lt_of_bad hrect hbad))]

/-- Witness for C6: one sample with one point born at 1 and dead at 0
fails with `ValueError`. -/
theorem check_diagram_below_diagonal_witness :
    check_diagram [[(PyFloat.fin 1, PyFloat.fin 0, PyFloat.fin 0)]] =
      .error .valueError :=
  (check_diagram_below_diagonal _ _ (by decide) (by decide)).2 (by decide)

/-- Claim C7: when the distinct homology dimensions of the first sample
contain the infinite sentinel together with at least one other distinct
value, `check_diagram` fails with `ValueError` — infinity is permitted
only as the unique distinct label. -/
theorem check_diagram_inf_not_sole (s0 : List DiagPoint)
    (rest : List (List DiagPoint))
    (h1 : PyFloat.inf ∈ (s0.map (fun p => p.2.2)).dedup)
    (h2 : ∃ d ∈ (s0.map (fun p => p.2.2)).dedup, d ≠ PyFloat.inf) :
    check_diagram (s0 :: rest) = .error .valueError := by
  have hn : ((s0.map (fun p => p.2.2)).dedup).length ≠ 1 := by
    intro hlen
    obtain ⟨d, hd, hdne⟩ := h2
    obtain ⟨x, hx⟩ := List.length_eq_one.mp hlen
    rw [hx] at h1 hd
    simp only [List.mem_singleton] at h1 hd
    exact hdne (hd.trans h1.symm)
  rw [check_diagram, checkDims_inf_error hn h1]

/-- Witness for C7: the dimension label set is `0` together with the
infinite sentinel, and the otherwise valid batch fails. -/
theorem check_diagram_inf_not_sole_witness :
    check_diagram [[(PyFloat.fin 0, PyFloat.fin 1, PyFloat.fin 0),
      (PyFloat.fin 0, PyFloat.fin 1, PyFloat.inf)]] =
      .error .valueError :=
  check_diagram_inf_not_sole _ _ (by decide) (by decide)

/-- Claim C8: on a batch passing the square-shape check, the
zero-diagonal check of `check_graph` fails with `ValueError` exactly
when the sum of all diagonal entries across all samples is nonzero —
when the sum is zero the call reduces to the remaining symmetry and
non-negativity stages, so the diagonal check does not raise.  In
particular the batch with diagonal entries +1 and -1 sums to zero and
passes the diagonal check (it is then caught by the later
non-negativity stage, not the diagonal one). -/
theorem check_graph_diagonal_sum :
    (∀ X, shapeRows X = shapeCols X →
      (diagSum X ≠ 0 → check_graph X = .error .valueError) ∧
      (diagSum X = 0 → check_graph X = symNegStage X)) ∧
    diagSum [[[1, 0], [0, -1]]] = 0 ∧
    check_graph [[[1, 0], [0, -1]]] = symNegStage [[[1, 0], [0, -1]]] := by
  refine ⟨?_, by decide, by decide⟩
  intro X hsq
  constructor
  · intro hd
    rw [check_graph, if_neg (by simp [hsq]), if_pos hd]
  · intro hd
    rw [check_graph, symNegStage, if_neg (by simp [hsq]),
      if_neg (by simp [hd])]

/-- Witness for C8: a single 1-by-1 matrix with diagonal entry 1 has
nonzero diagonal sum, and `check_graph` fails with `ValueError`. -/
theorem check_graph_diagonal_sum_witness :
    check_graph [[[1]]] = .error .valueError :=
  (check_graph_diagonal_sum.1 [[[1]]] rfl).1 (by decide)

/-- Claim C9: a graph batch with square sample matrices, diagonal
entries summing to zero, equal within the `np.allclose` tolerance to
its transpose along the last two axes and containing no negative entry
passes `check_graph`, which returns the input unchanged; a batch that
is otherwise valid but contains a single negative off-diagonal entry
(of magnitude `1e-9`, below the symmetry tolerance) fails with
`ValueError`. -/
theorem check_graph_valid_ok :
    (∀ X, shapeRows X = shapeCols X → diagSum X = 0 →
      allcloseB X (transposeB X) = true → negCount X = 0 →
      check_graph X = .ok X) ∧
    check_graph [[[0, mkRat (-1) 1000000000], [0, 0]]] =
      .error .valueError := by
  refine ⟨?_, by decide⟩
  intro X h1 h2 h3 h4
  rw [check_graph, if_neg (by simp [h1]), if_neg (by simp [h2]),
    if_neg (by simp [h3]), if_neg (by simp [h4])]

/-- Witness for C9: the path graph on two nodes — symmetric, zero
diagonal, non-negative — passes through unchanged. -/
theorem check_graph_valid_ok_witness :
    check_graph [[[0, 1], [1, 0]]] = .ok [[[0, 1], [1, 0]]] :=
  check_graph_valid_ok.1 [[[0, 1], [1, 0]]] rfl (by decide) (by decide)
    (by decide)

end GiottoValidation
